import Mathlib

/-!
# Verification of the AivisSpeech Engine model registry and style-identifier codec

Shallow embedding of `voicevox_engine/aivm_manager.py` (class `AivmManager`).
Python machine-free integers are modeled as `Nat`/`Int`; bit masks `x & (2^w - 1)`
are modeled as `x % 2^w`, left shifts as multiplication, and the bitwise OR of
values with disjoint bit ranges as addition.  Python exceptions are modeled with
`Except PyExc`.  The MD5 digest used by the codec is modeled as an arbitrary
function `md5hash : String → Nat` (the theorems hold for every hash function,
in particular for MD5 itself).
-/

set_option linter.unusedVariables false

namespace AivisSpec

/-- Python exceptions raised or caught by `aivm_manager.py`. -/
inductive PyExc where
  /-- `ValueError` with its message. -/
  | valueError (msg : String)
  /-- `fastapi.HTTPException` with status code and detail. -/
  | httpException (status_code : Nat) (detail : String)
  /-- `IndexError` from sequence indexing. -/
  | indexError
deriving DecidableEq, Repr

/-! ## Style-identifier codec (`local_style_id_to_style_id` / `style_id_to_local_style_id`) -/

/-- Core arithmetic of `AivmManager.local_style_id_to_style_id` (lines 828-850),
after the argument guards have passed.
- `md5hash speaker_uuid % 2 ^ 27` models `int(md5(speaker_uuid).hexdigest(), 16) & UUID_BIT_MASK`;
- `local_style_id.toNat % 2 ^ 5` models `local_style_id & LOCAL_STYLE_ID_MASK`
  (non-negative by the guard);
- `uuid_hash * 2 ^ 5 + local_style_id_masked` models
  `(uuid_hash << LOCAL_STYLE_ID_BITS) | local_style_id_masked`
  (the two operands occupy disjoint bit ranges, so OR is addition);
- the final `if` models `if combined_id & SIGN_BIT: combined_id &= ~SIGN_BIT`
  (clearing bit 31 of a value below `2 ^ 32` subtracts `2 ^ 31` exactly when
  the value is at least `2 ^ 31`). -/
def style_id_core (md5hash : String → Nat) (speaker_uuid : String)
    (local_style_id : Int) : Nat :=
  let uuid_hash := md5hash speaker_uuid % 2 ^ 27
  let local_style_id_masked := local_style_id.toNat % 2 ^ 5
  let combined_id := uuid_hash * 2 ^ 5 + local_style_id_masked
  if 2 ^ 31 ≤ combined_id then combined_id - 2 ^ 31 else combined_id

/-- `AivmManager.local_style_id_to_style_id` (lines 803-850): converts a local
style id of one speaker into a globally unique VOICEVOX-compatible `StyleId`.
Raises `ValueError` when `speaker_uuid` is empty (Python `if not speaker_uuid`)
or when `local_style_id` lies outside `[0, 31]`. -/
def local_style_id_to_style_id (md5hash : String → Nat) (local_style_id : Int)
    (speaker_uuid : String) : Except PyExc Nat :=
  if speaker_uuid = "" then
    .error (.valueError "speaker_uuid must be a non-empty string")
  else if 0 ≤ local_style_id ∧ local_style_id ≤ 31 then
    .ok (style_id_core md5hash speaker_uuid local_style_id)
  else
    .error (.valueError "local_style_id must be an integer between 0 and 31")

/-- `AivmManager.style_id_to_local_style_id` (lines 852-869):
`style_id & 0x1F`, i.e. the low 5 bits. -/
def style_id_to_local_style_id (style_id : Nat) : Nat :=
  style_id % 2 ^ 5

/-! ## Kernel-computable models of the Python string primitives used by the scan

These mirror `str.lower`, `str.split(sep)`, `str.split(sep, 1)[1]`, `int(s)` and
`"x" in s` on the character-list model of strings. -/

/-- Python `str.lower()` (restricted to the ASCII case mapping). -/
def pyLower (s : String) : String :=
  String.mk (s.data.map Char.toLower)

/-- Python `str.split(sep)` on character lists: `"".split(sep) = [""]`,
and every occurrence of `sep` starts a new group. -/
def splitChar (sep : Char) : List Char → List (List Char)
  | [] => [[]]
  | c :: cs =>
    let r := splitChar sep cs
    if c = sep then [] :: r
    else
      match r with
      | [] => [[c]]
      | g :: gs => (c :: g) :: gs

/-- Python `str.split(sep)` returning strings. -/
def pySplit (sep : Char) (s : String) : List String :=
  (splitChar sep s.data).map String.mk

/-- The characters after the first comma; models `data_url.split(",", 1)[1]`
(only used when the list contains a comma). -/
def afterFirstComma : List Char → List Char
  | [] => []
  | c :: cs => if c = ',' then cs else afterFirstComma cs

/-- Whether `cs` is a non-empty string of decimal digits. -/
def isDigits (cs : List Char) : Bool :=
  !cs.isEmpty && cs.all (·.isDigit)

/-- The number denoted by a string of decimal digits. -/
def digitsToNat (cs : List Char) : Nat :=
  cs.foldl (fun n c => n * 10 + (c.toNat - 48)) 0

/-- Python `int(s)` for base-10 string literals: strips surrounding whitespace,
accepts an optional `+`/`-` sign followed by digits; `none` models the
`ValueError` that `int` raises on anything else. -/
def pyInt? (s : String) : Option Int :=
  let cs := ((s.data.dropWhile (·.isWhitespace)).reverse.dropWhile
    (·.isWhitespace)).reverse
  match cs with
  | '-' :: rest => if isDigits rest then some (-(digitsToNat rest : Int)) else none
  | '+' :: rest => if isDigits rest then some (digitsToNat rest : Int) else none
  | _ => if isDigits cs then some (digitsToNat cs : Int) else none

/-- The three conditions `AivmManager.extract_base64_from_data_url` checks
before extracting: non-empty, starts with `"data:"`, contains a comma. -/
def isValidDataUrl (s : String) : Bool :=
  !s.data.isEmpty && "data:".data.isPrefixOf s.data && s.data.contains ','

/-- `AivmManager.extract_base64_from_data_url` (lines 871-898): returns the part
of a data URL after the first comma, raising `ValueError` on an empty string,
a string not starting with `"data:"`, or a string without a comma. -/
def extract_base64_from_data_url (data_url : String) : Except PyExc String :=
  if data_url.data.isEmpty then
    .error (.valueError "Data URL is empty.")
  else if !("data:".data.isPrefixOf data_url.data) then
    .error (.valueError "Invalid data URL format.")
  else if data_url.data.contains ',' then
    .ok (String.mk (afterFirstComma data_url.data))
  else
    .error (.valueError "Invalid data URL format.")

/-! ## Data model

Structures mirroring `voicevox_engine.metas.Metas` (the VOICEVOX-compatible
output side), the `aivmlib` manifest schema (the package side, restricted to
the fields `aivm_manager.py` reads), and `voicevox_engine.model.AivmInfo`. -/

/-- `Metas.SpeakerStyle`: one style of a speaker as served to clients. -/
structure SpeakerStyle where
  id : Nat
  name : String
  /-- Always `"talk"` in AivisSpeech. -/
  style_type : String
deriving DecidableEq, Repr

/-- `Metas.StyleInfo`: additional per-style metadata. -/
structure StyleInfo where
  id : Nat
  icon : String
  portrait : Option String
  voice_samples : List String
  voice_sample_transcripts : List String
deriving DecidableEq, Repr

/-- `Metas.SpeakerSupportedFeatures` (only the morphing policy is set). -/
structure SpeakerSupportedFeatures where
  permitted_synthesis_morphing : String
deriving DecidableEq, Repr

/-- `Metas.Speaker`: one speaker as served to clients. -/
structure Speaker where
  speaker_uuid : String
  name : String
  version : String
  supported_features : SpeakerSupportedFeatures
  styles : List SpeakerStyle
deriving DecidableEq, Repr

/-- `Metas.SpeakerInfo`: additional per-speaker metadata. -/
structure SpeakerInfo where
  policy : String
  portrait : String
  style_infos : List StyleInfo
deriving DecidableEq, Repr

/-- `model.LibrarySpeaker`: a speaker together with its additional metadata. -/
structure LibrarySpeaker where
  speaker : Speaker
  speaker_info : SpeakerInfo
deriving DecidableEq, Repr

/-- `aivmlib.schemas.aivm_manifest.ModelArchitecture`; architectures other than
the two supported ones are collapsed into `other`. -/
inductive ModelArchitecture where
  | styleBertVITS2
  | styleBertVITS2JPExtra
  | other (name : String)
deriving DecidableEq, Repr

/-- One `(audio, transcript)` voice sample of a style in the AIVM manifest. -/
structure VoiceSample where
  audio : String
  transcript : String
deriving DecidableEq, Repr

/-- `AivmManifestSpeakerStyle` (the fields read by `aivm_manager.py`). -/
structure AivmManifestSpeakerStyle where
  local_id : Int
  name : String
  icon : Option String
  voice_samples : List VoiceSample
deriving DecidableEq, Repr

/-- `AivmManifestSpeaker` (the fields read by `aivm_manager.py`). -/
structure AivmManifestSpeaker where
  uuid : String
  name : String
  supported_languages : List String
  icon : String
  styles : List AivmManifestSpeakerStyle
deriving DecidableEq, Repr

/-- `AivmManifest` (the fields read by `aivm_manager.py`). -/
structure AivmManifest where
  uuid : String
  name : String
  manifest_version : String
  version : String
  license : Option String
  model_architecture : ModelArchitecture
  speakers : List AivmManifestSpeaker
deriving DecidableEq, Repr

/-- `model.AivmInfo`: one registry entry of the in-memory cache. -/
structure AivmInfo where
  is_loaded : Bool
  is_update_available : Bool
  latest_version : String
  file_path : String
  file_size : Nat
  manifest : AivmManifest
  speakers : List LibrarySpeaker
deriving DecidableEq, Repr

/-- What reading one on-disk package file yields in the scan loop
(lines 279-300): the path-validation failures, an
`aivmlib.AivmValidationError`, or a successfully parsed manifest. -/
inductive FileContent where
  /-- `not aivm_file_path.exists()` -/
  | missing
  /-- `not aivm_file_path.is_file()` -/
  | notAFile
  /-- `aivmlib` raised `AivmValidationError` -/
  | invalidMetadata
  /-- metadata read successfully -/
  | valid (manifest : AivmManifest)
deriving DecidableEq, Repr

/-- One file enumerated by the directory glob, with its path, its size
(`stat().st_size`) and what reading it yields. -/
structure AivmFile where
  path : String
  size : Nat
  content : FileContent
deriving DecidableEq, Repr

/-- The in-memory cache `self._installed_aivm_infos`: a Python `dict` keyed by
model UUID, modeled as an association list in insertion order. -/
abbrev Cache := List (String × AivmInfo)

/-- Python `dict` lookup on the association-list model (keys are unique in
every dict the code builds, so first match is the binding). -/
def alookup (k : String) : List (String × AivmInfo) → Option AivmInfo
  | [] => none
  | (k', v) :: rest => if k' = k then some v else alookup k rest

/-! ## Constants of `AivmManager` -/

/-- `SUPPORTED_MANIFEST_VERSIONS` (line 49). -/
def SUPPORTED_MANIFEST_VERSIONS : List String := ["1.0"]

/-- `SUPPORTED_MODEL_ARCHITECTURES` (lines 52-55). -/
def SUPPORTED_MODEL_ARCHITECTURES : List ModelArchitecture :=
  [.styleBertVITS2, .styleBertVITS2JPExtra]

/-- `AIVISHUB_API_BASE_URL` (line 58). -/
def AIVISHUB_API_BASE_URL : String := "https://api.aivis-project.com/v1"

/-- `DEFAULT_MODEL_UUIDS` (lines 61-63). -/
def DEFAULT_MODEL_UUIDS : List String := ["a59cb814-0083-4369-8542-f51a29e72af7"]

/-- `int(self.SUPPORTED_MANIFEST_VERSIONS[0].split(".")[0])` (line 322). -/
def supported_major : Int :=
  (pyInt? ((pySplit '.' (SUPPORTED_MANIFEST_VERSIONS.headD "")).headD "")).getD 0

/-! ## The rescan pass of `get_installed_aivm_infos` (lines 249-479) -/

/-- The list comprehension building `StyleInfo.voice_samples` (lines 403-406):
extracts the Base64 payload of every sample's audio data URL, propagating the
first `ValueError`. -/
def extractVoiceSamples : List VoiceSample → Except PyExc (List String)
  | [] => .ok []
  | s :: rest =>
    match extract_base64_from_data_url s.audio with
    | .error e => .error e
    | .ok b =>
      match extractVoiceSamples rest with
      | .error e => .error e
      | .ok bs => .ok (b :: bs)

/-- The `StyleInfo` icon expression (line 398):
`extract_base64_from_data_url(style_manifest.icon) if style_manifest.icon
else speaker_icon` — the style's own icon when truthy (non-`None` and
non-empty), the speaker's icon otherwise. -/
def styleIcon (speaker_icon : String) (icon : Option String) :
    Except PyExc String :=
  match icon with
  | some ic =>
    if ic.data.isEmpty then .ok speaker_icon
    else extract_base64_from_data_url ic
  | none => .ok speaker_icon

/-- One iteration of the per-style loop (lines 376-413): converts the local
style id, builds the `SpeakerStyle`, and builds the `StyleInfo`. -/
def processStyle (md5hash : String → Nat) (speaker_uuid : String)
    (speaker_icon : String) (style_manifest : AivmManifestSpeakerStyle) :
    Except PyExc (SpeakerStyle × StyleInfo) :=
  match local_style_id_to_style_id md5hash style_manifest.local_id speaker_uuid with
  | .error e => .error e
  | .ok style_id =>
    let speaker_style : SpeakerStyle :=
      { id := style_id, name := style_manifest.name, style_type := "talk" }
    match styleIcon speaker_icon style_manifest.icon with
    | .error e => .error e
    | .ok icon =>
      match extractVoiceSamples style_manifest.voice_samples with
      | .error e => .error e
      | .ok samples =>
        .ok (speaker_style,
          { id := style_id, icon := icon, portrait := none,
            voice_samples := samples,
            voice_sample_transcripts :=
              style_manifest.voice_samples.map (·.transcript) })

/-- The per-style loop over a speaker's styles, in manifest order. -/
def processStyles (md5hash : String → Nat) (speaker_uuid : String)
    (speaker_icon : String) :
    List AivmManifestSpeakerStyle → Except PyExc (List (SpeakerStyle × StyleInfo))
  | [] => .ok []
  | st :: rest =>
    match processStyle md5hash speaker_uuid speaker_icon st with
    | .error e => .error e
    | .ok p =>
      match processStyles md5hash speaker_uuid speaker_icon rest with
      | .error e => .error e
      | .ok ps => .ok (p :: ps)

/-- One iteration of the per-speaker loop (lines 358-447): speakers that do not
declare Japanese support are skipped (`none`); otherwise the speaker icon is
extracted and the `LibrarySpeaker` assembled. -/
def processSpeaker (md5hash : String → Nat) (manifest : AivmManifest)
    (sp : AivmManifestSpeaker) : Except PyExc (Option LibrarySpeaker) :=
  let supported_langs := sp.supported_languages.map pyLower
  if !(supported_langs.contains "ja" || supported_langs.contains "ja-jp") then
    .ok none
  else
    match extract_base64_from_data_url sp.icon with
    | .error e => .error e
    | .ok speaker_icon =>
      match processStyles md5hash sp.uuid speaker_icon sp.styles with
      | .error e => .error e
      | .ok pairs =>
        .ok (some
          { speaker :=
              { speaker_uuid := sp.uuid, name := sp.name,
                version := manifest.version,
                supported_features := { permitted_synthesis_morphing := "NOTHING" },
                styles := pairs.map Prod.fst },
            speaker_info :=
              { policy := manifest.license.getD "",
                portrait := speaker_icon,
                style_infos := pairs.map Prod.snd } })

/-- The per-speaker loop over a manifest's speakers, keeping the non-skipped
ones in manifest order. -/
def processSpeakers (md5hash : String → Nat) (manifest : AivmManifest) :
    List AivmManifestSpeaker → Except PyExc (List LibrarySpeaker)
  | [] => .ok []
  | sp :: rest =>
    match processSpeaker md5hash manifest sp with
    | .error e => .error e
    | .ok r =>
      match processSpeakers md5hash manifest rest with
      | .error e => .error e
      | .ok others =>
        .ok (match r with | none => others | some s => s :: others)

/-- One iteration of the per-file scan loop (lines 277-450): path-validation
failures, metadata-read failures, duplicate UUIDs, malformed or
unsupported-major manifest versions and unsupported architectures are skipped
with a warning (the accumulator is returned unchanged); `int()` failing on a
two-part manifest version raises an uncaught `ValueError`; otherwise the
assembled `AivmInfo` is appended under its UUID. -/
def processFile (md5hash : String → Nat) (acc : Cache) (f : AivmFile) :
    Except PyExc Cache :=
  match f.content with
  | .missing => .ok acc
  | .notAFile => .ok acc
  | .invalidMetadata => .ok acc
  | .valid m =>
    if (alookup m.uuid acc).isSome then .ok acc
    else
      match pySplit '.' m.manifest_version with
      | [p0, p1] =>
        match pyInt? p0, pyInt? p1 with
        | some manifest_major, some _ =>
          if manifest_major ≠ supported_major then .ok acc
          else if m.model_architecture ∉ SUPPORTED_MODEL_ARCHITECTURES then .ok acc
          else
            match processSpeakers md5hash m m.speakers with
            | .error e => .error e
            | .ok speakers =>
              .ok (acc ++ [(m.uuid,
                { is_loaded := false, is_update_available := false,
                  latest_version := m.version, file_path := f.path,
                  file_size := f.size, manifest := m, speakers := speakers })])
        | _, _ =>
          .error (.valueError "invalid literal for int() with base 10")
      | _ => .ok acc

/-- The scan loop over all globbed files, left to right. -/
def scanFiles (md5hash : String → Nat) : List AivmFile → Cache → Except PyExc Cache
  | [], acc => .ok acc
  | f :: rest, acc =>
    match processFile md5hash acc f with
    | .error e => .error e
    | .ok acc' => scanFiles md5hash rest acc'

/-- Stable insertion of an entry into a list sorted by model name; together
with `sortByName` this models the stable
`sorted(aivm_infos.items(), key=lambda x: x[1].manifest.name)` (line 453). -/
def insertByName (e : String × AivmInfo) : Cache → Cache
  | [] => [e]
  | f :: rest =>
    if f.2.manifest.name < e.2.manifest.name then f :: insertByName e rest
    else e :: f :: rest

/-- Stable sort of the scanned entries by model name (line 453).  Only the
fact that this is a permutation preserving keys and values is used by the
theorems below; the ordering itself is not load-bearing for any claim. -/
def sortByName (infos : Cache) : Cache :=
  infos.foldr insertByName []

/-- Lines 455-459: migrate `is_loaded` from the previous cache generation onto
every entry of the new one whose UUID it also had. -/
def carryOverLoadState (prev : Option Cache) (cur : Cache) : Cache :=
  match prev with
  | none => cur
  | some p =>
    cur.map (fun e =>
      match alookup e.1 p with
      | some prev_info => (e.1, { e.2 with is_loaded := prev_info.is_loaded })
      | none => e)

/-- The forced-rescan body of `get_installed_aivm_infos` (lines 272-479,
without the non-blocking AivisHub reconciliation, modeled separately by
`check_aivm_updates_from_hub`): scan every globbed file, sort by model name,
and carry the previous load states over. -/
def rescan_aivm_dir (md5hash : String → Nat) (prev : Option Cache)
    (files : List AivmFile) : Except PyExc Cache :=
  match scanFiles md5hash files [] with
  | .error e => .error e
  | .ok aivm_infos => .ok (carryOverLoadState prev (sortByName aivm_infos))

/-- `AivmManager.get_installed_aivm_infos` (lines 249-479): returns the cache
unless a rescan is forced or no cache exists yet. -/
def get_installed_aivm_infos (md5hash : String → Nat) (force : Bool)
    (prev : Option Cache) (files : List AivmFile) : Except PyExc Cache :=
  match prev, force with
  | some cache, false => .ok cache
  | p, _ => rescan_aivm_dir md5hash p files

/-- Whether an `Except` result is a normal return (no exception). -/
def isOkE {ε α : Type} : Except ε α → Bool
  | .ok _ => true
  | .error _ => false

/-! ## Well-formedness conditions under which the scan cannot raise (claim C3) -/

/-- The per-style inputs whose violation makes the scan raise `ValueError`:
the local style id must lie in `[0, 31]` (codec guard), a truthy style icon
must be a data URL, and every voice sample's audio must be a data URL. -/
def styleOk (st : AivmManifestSpeakerStyle) : Bool :=
  decide (0 ≤ st.local_id) && decide (st.local_id ≤ 31) &&
  (match st.icon with
   | some ic => ic.data.isEmpty || isValidDataUrl ic
   | none => true) &&
  st.voice_samples.all (fun s => isValidDataUrl s.audio)

/-- The per-speaker inputs whose violation makes the scan raise: only
Japanese-supporting speakers are processed, and for those the UUID must be
non-empty (codec guard), the speaker icon a data URL, and every style Ok. -/
def speakerOk (sp : AivmManifestSpeaker) : Bool :=
  let supported_langs := sp.supported_languages.map pyLower
  if !(supported_langs.contains "ja" || supported_langs.contains "ja-jp") then
    true
  else
    !(sp.uuid == "") && isValidDataUrl sp.icon && sp.styles.all styleOk

/-- The per-manifest inputs whose violation makes the scan raise: a two-part
manifest version must have `int()`-parseable parts, and every speaker Ok. -/
def manifestOk (m : AivmManifest) : Bool :=
  (match pySplit '.' m.manifest_version with
   | [p0, p1] => (pyInt? p0).isSome && (pyInt? p1).isSome
   | _ => true) &&
  m.speakers.all speakerOk

/-- A file the scan can process without raising: anything it skips, or a
manifest satisfying `manifestOk`. -/
def fileOk (f : AivmFile) : Bool :=
  match f.content with
  | .valid m => manifestOk m
  | _ => true

/-! ## `uninstall_aivm` (claim C6) -/

/-- The manager state relevant to install/uninstall: the install directory's
files and the in-memory cache. -/
structure RegistryState where
  files : List AivmFile
  cache : Option Cache
deriving DecidableEq, Repr

/-- The observable outcome of `uninstall_aivm`. -/
inductive UninstallOutcome where
  /-- `HTTPException(404)`: the model is not installed. -/
  | notFound404
  /-- `HTTPException(400)`: at least one model must remain installed. -/
  | minCardinality400
  /-- normal return -/
  | ok
  /-- some other exception propagated (e.g. from the rescan) -/
  | raised (e : PyExc)
deriving DecidableEq, Repr

/-- `AivmManager.uninstall_aivm` (lines 764-801): look the UUID up in the
cached infos (`get_installed_aivm_infos()` without force), fail with 404 when
absent, fail with 400 when at most one model is installed, otherwise delete
the entry's backing file (`unlink(missing_ok=True)`) and force a blocking
rescan.  Returns the state after the call together with the outcome. -/
def uninstall_aivm (md5hash : String → Nat) (st : RegistryState)
    (aivm_uuid : String) : RegistryState × UninstallOutcome :=
  match get_installed_aivm_infos md5hash false st.cache st.files with
  | .error e => (st, .raised e)
  | .ok installed_aivm_infos =>
    let st1 : RegistryState := { st with cache := some installed_aivm_infos }
    match alookup aivm_uuid installed_aivm_infos with
    | none => (st1, .notFound404)
    | some info =>
      if installed_aivm_infos.length ≤ 1 then (st1, .minCardinality400)
      else
        let files2 := st1.files.filter (fun f => f.path != info.file_path)
        match get_installed_aivm_infos md5hash true (some installed_aivm_infos) files2 with
        | .error e => ({ files := files2, cache := some installed_aivm_infos }, .raised e)
        | .ok infos2 => ({ files := files2, cache := some infos2 }, .ok)

/-! ## The filesystem interaction of `install_aivm` (claim C7) -/

/-- Filesystem operations relevant to placing a package file. -/
inductive FsOp where
  /-- open for writing and write the bytes (non-atomic) -/
  | writeFile (path : String) (data : List Nat)
  /-- atomically replace `dst` with `src` (`os.replace`-style) -/
  | replaceFile (src dst : String)
deriving DecidableEq, Repr

/-- The filesystem operations `install_aivm` performs to place the package
bytes (lines 648-652): a single direct
`open(aivm_file_path, "wb").write(file.read())` — no temporary file and no
atomic replace. -/
def install_aivm_write_ops (aivm_file_path : String) (data : List Nat) :
    List FsOp :=
  [.writeFile aivm_file_path data]

/-- The contents that may be observed at `path` if the process crashes at any
point while executing `ops` against the filesystem `fs` (`none` = file
absent).  A `writeFile` is non-atomic: a crash during it can leave any take of
the data on disk; a `replaceFile` is atomic: a crash leaves either the old or
the new state. -/
def crashObservable (fs : String → Option (List Nat)) (path : String) :
    List FsOp → List (Option (List Nat))
  | [] => [fs path]
  | .writeFile p d :: rest =>
    (if p = path then (List.range (d.length + 1)).map (fun k => some (d.take k))
     else [fs path])
    ++ crashObservable (fun q => if q = p then some d else fs q) path rest
  | .replaceFile src dst :: rest =>
    [fs path]
    ++ crashObservable
        (fun q => if q = dst then fs src else if q = src then none else fs q)
        path rest

/-! ## `install_aivm`, `install_aivm_from_url` and the constructor (claim C8) -/

/-- A package upload/download as consumed by `install_aivm`: what
`aivmlib.read_aivmx_metadata` and `aivmlib.read_aivm_metadata` yield on the
bytes (`none` models `AivmValidationError`), and the byte count. -/
structure PackageBytes where
  read_aivmx : Option AivmManifest
  read_aivm : Option AivmManifest
  size : Nat
deriving DecidableEq, Repr

/-- The outcome of `httpx.get(url)` plus `raise_for_status()`: the downloaded
package bytes, or an `httpx.HTTPError` (non-2xx status or transport failure). -/
inductive DownloadResult where
  | success (pkg : PackageBytes)
  | failure
deriving DecidableEq, Repr

/-- `f"{AIVISHUB_API_BASE_URL}/aivm-models/{aivm_uuid}/download?model_type=AIVMX"`. -/
def aivm_download_url (aivm_uuid : String) : String :=
  AIVISHUB_API_BASE_URL ++ "/aivm-models/" ++ aivm_uuid ++ "/download?model_type=AIVMX"

/-- `AivmManager.install_aivm` (lines 584-674): parse the bytes (AIVMX first,
legacy AIVM as fallback, 422 on both failing), resolve the target path (the
already-installed entry's path when the UUID is known, else
`<uuid>.<extension>`), validate manifest version and architecture (422),
write the file (the write itself is modeled as succeeding; its filesystem
interaction is `install_aivm_write_ops`), and force a blocking rescan. -/
def install_aivm_m (md5hash : String → Nat) (st : RegistryState)
    (file : PackageBytes) : Except PyExc RegistryState :=
  let parsed : Option (AivmManifest × String) :=
    match file.read_aivmx with
    | some m => some (m, "aivmx")
    | none =>
      match file.read_aivm with
      | some m => some (m, "aivm")
      | none => none
  match parsed with
  | none => .error (.httpException 422 "invalid AIVMX file")
  | some (aivm_manifest, extension) =>
    match get_installed_aivm_infos md5hash false st.cache st.files with
    | .error e => .error e
    | .ok infos =>
      let st1 : RegistryState := { st with cache := some infos }
      let aivm_file_path :=
        match alookup aivm_manifest.uuid infos with
        | some previous_aivm_info => previous_aivm_info.file_path
        | none => aivm_manifest.uuid ++ "." ++ extension
      if aivm_manifest.manifest_version ∉ SUPPORTED_MANIFEST_VERSIONS then
        .error (.httpException 422 "unsupported manifest version")
      else if aivm_manifest.model_architecture ∉ SUPPORTED_MODEL_ARCHITECTURES then
        .error (.httpException 422 "unsupported model architecture")
      else
        let files2 := st1.files.filter (fun f => f.path != aivm_file_path)
          ++ [{ path := aivm_file_path, size := file.size,
                content := .valid aivm_manifest }]
        match get_installed_aivm_infos md5hash true (some infos) files2 with
        | .error e => .error e
        | .ok infos2 => .ok { files := files2, cache := some infos2 }

/-- `AivmManager.install_aivm_from_url` (lines 676-725) for direct download
URLs: fetch the bytes, raise `HTTPException(500)` on `httpx.HTTPError`, then
delegate to `install_aivm`.  (The special-case rewriting of AivisHub model
*page* URLs to API download URLs, lines 687-704, is not modeled: no claim
depends on it, and the constructor only ever passes API download URLs.) -/
def install_aivm_from_url_m (md5hash : String → Nat) (st : RegistryState)
    (download : String → DownloadResult) (url : String) :
    Except PyExc RegistryState :=
  match download url with
  | .failure => .error (.httpException 500 "failed to download AIVMX file")
  | .success pkg => install_aivm_m md5hash st pkg

/-- `AivmManager.__init__` (lines 65-94): initial scan; when no models are
installed, download and install each UUID of `DEFAULT_MODEL_UUIDS` from
AivisHub — with no exception handling around the loop. -/
def AivmManager_init (md5hash : String → Nat) (files : List AivmFile)
    (download : String → DownloadResult) : Except PyExc RegistryState :=
  match get_installed_aivm_infos md5hash false none files with
  | .error e => .error e
  | .ok infos =>
    let st1 : RegistryState := { files := files, cache := some infos }
    if infos.length = 0 then
      DEFAULT_MODEL_UUIDS.foldlM
        (fun st aivm_uuid =>
          install_aivm_from_url_m md5hash st download (aivm_download_url aivm_uuid))
        st1
    else
      .ok st1

/-! ## AivisHub update reconciliation (`check_aivm_updates_from_hub`, claim C9) -/

/-- One element of the `model_files` array of the AivisHub response JSON;
`none` fields model missing keys (`KeyError` on subscript access). -/
structure ModelFile where
  model_type : Option String
  version : Option String
deriving DecidableEq, Repr

/-- The outcome of the per-entry AivisHub request of `fetch_latest_version`
(lines 487-507). -/
inductive CatalogResult where
  /-- HTTP 404: model not published on AivisHub -/
  | notFoundResp
  /-- another non-200 status code -/
  | httpError (code : Nat)
  /-- `httpx.TimeoutException` -/
  | timeoutErr
  /-- another `httpx.RequestError` (network failure etc.) -/
  | transportError
  /-- `response.json()` raised -/
  | badJson
  /-- HTTP 200 with a decoded JSON body; `none` models a body without a
  `model_files` key (`KeyError`) -/
  | ok (model_files : Option (List ModelFile))
deriving DecidableEq, Repr

/-- The generator `next((file for file in model_files if
file["model_type"] == "AIVMX"), None)` (lines 510-517): scans left to right;
a file without a `model_type` key raises `KeyError` (modeled as `.error ()`)
before any later file is examined. -/
def findAivmx : List ModelFile → Except Unit (Option ModelFile)
  | [] => .ok none
  | f :: rest =>
    match f.model_type with
    | none => .error ()
    | some t => if t = "AIVMX" then .ok (some f) else findAivmx rest

/-- One numeric component of a semantic version (no sign, no leading zero). -/
def semverNumeric (cs : List Char) : Bool :=
  isDigits cs && (cs.length == 1 || cs.headD '0' != '0')

/-- `semver.Version.parse` restricted to plain `MAJOR.MINOR.PATCH` versions
(`none` models the `ValueError` on anything else; pre-release/build suffixes
are conservatively treated as unparseable, which no claim depends on). -/
def semver_parse? (s : String) : Option (Nat × Nat × Nat) :=
  match splitChar '.' s.data with
  | [a, b, c] =>
    if semverNumeric a && semverNumeric b && semverNumeric c then
      some (digitsToNat a, digitsToNat b, digitsToNat c)
    else none
  | _ => none

/-- Strict semantic-version ordering on parsed `MAJOR.MINOR.PATCH` triples. -/
def semverLt (a b : Nat × Nat × Nat) : Bool :=
  decide (a.1 < b.1) ||
  (a.1 == b.1 && (decide (a.2.1 < b.2.1) ||
    (a.2.1 == b.2.1 && decide (a.2.2 < b.2.2))))

/-- The catalog outcomes the reconciliation policy classifies as failures
(timeout, transport error, 404, other non-2xx, undecodable or key-missing
JSON): spec §4.4 requires all of them to leave the entry unchanged. -/
def isFailureResponse : CatalogResult → Bool
  | .notFoundResp => true
  | .httpError _ => true
  | .timeoutErr => true
  | .transportError => true
  | .badJson => true
  | .ok none => true
  | .ok (some _) => false

/-- The inner `fetch_latest_version` of `check_aivm_updates_from_hub`
(lines 486-540): every failure outcome is caught and leaves the entry as it
was — except that when the response is well-formed, `latest_version` is
assigned (line 521) *before* `Version.parse` runs (lines 523-524), so a
version-parse failure leaves `latest_version` already overwritten while
`is_update_available` keeps its prior value. -/
def fetch_latest_version (catalog : String → CatalogResult) (aivm_info : AivmInfo) :
    AivmInfo :=
  match catalog aivm_info.manifest.uuid with
  | .notFoundResp => aivm_info
  | .httpError _ => aivm_info
  | .timeoutErr => aivm_info
  | .transportError => aivm_info
  | .badJson => aivm_info
  | .ok none => aivm_info
  | .ok (some model_files) =>
    match findAivmx model_files with
    | .error _ => aivm_info
    | .ok none => aivm_info
    | .ok (some latest_aivmx) =>
      match latest_aivmx.version with
      | none => aivm_info
      | some v =>
        let info1 := { aivm_info with latest_version := v }
        match semver_parse? info1.manifest.version, semver_parse? v with
        | some current_version, some latest_version =>
          { info1 with is_update_available := semverLt current_version latest_version }
        | _, _ => info1

/-- `AivmManager.check_aivm_updates_from_hub` (lines 481-550): one independent
`fetch_latest_version` task per cache entry (`asyncio.gather` with
`return_exceptions=True`). -/
def check_aivm_updates_from_hub (catalog : String → CatalogResult)
    (cache : Cache) : Cache :=
  cache.map (fun e => (e.1, fetch_latest_version catalog e.2))

/-! ## `get_style_id_from_model_name` (claim C10) -/

/-- `AivmManager.get_style_id_from_model_name` (lines 143-152): scan the cache
in order; on the first model containing a speaker whose name equals
`model_name`, return `aivm_info.speakers[0].speaker.styles[0].id` (the first
style of the model's *first* speaker, not of the matching one); raise
`HTTPException(500)` when no speaker matches.  `.indexError` models the
`IndexError` of `styles[0]`/`speakers[0]` on an empty list. -/
def get_style_id_from_model_name (infos : Cache) (model_name : String) :
    Except PyExc Nat :=
  match infos with
  | [] => .error (.httpException 500 "model_name does not exist")
  | (_, aivm_info) :: rest =>
    if aivm_info.speakers.any (fun s => s.speaker.name == model_name) then
      match aivm_info.speakers with
      | [] => .error .indexError
      | s0 :: _ =>
        match s0.speaker.styles with
        | [] => .error .indexError
        | st0 :: _ => .ok st0.id
    else
      get_style_id_from_model_name rest model_name

/-! ## Concrete data for counterexamples and witnesses -/

/-- A stand-in hash function for concrete evaluations (the theorems hold for
every hash function). -/
def md5hash0 : String → Nat := fun _ => 5

/-- A minimal valid manifest without speakers. -/
def mEx : AivmManifest :=
  { uuid := "u1", name := "Model A", manifest_version := "1.0",
    version := "1.0.0", license := some "MIT",
    model_architecture := .styleBertVITS2, speakers := [] }

/-- A package file carrying `mEx`. -/
def fEx : AivmFile :=
  { path := "/models/u1.aivmx", size := 3, content := .valid mEx }

/-- A valid manifest with one Japanese speaker carrying one style. -/
def richManifest : AivmManifest :=
  { uuid := "u2", name := "Model B", manifest_version := "1.0",
    version := "1.2.3", license := some "CC0",
    model_architecture := .styleBertVITS2JPExtra,
    speakers :=
      [{ uuid := "s1", name := "Alice", supported_languages := ["ja"],
         icon := "data:image/png;base64,QUJD",
         styles :=
           [{ local_id := 0, name := "Normal", icon := none,
              voice_samples :=
                [{ audio := "data:audio/wav;base64,QQ==",
                   transcript := "hello" }] }] }] }

/-- A package file carrying `richManifest`. -/
def richFile : AivmFile :=
  { path := "/models/u2.aivmx", size := 42, content := .valid richManifest }

/-- A manifest whose `manifest_version` has two parts but a non-numeric major
part: `int("v1")` raises `ValueError` inside the scan loop. -/
def badVersionManifest : AivmManifest :=
  { uuid := "u3", name := "Model C", manifest_version := "v1.0",
    version := "1.0.0", license := none,
    model_architecture := .styleBertVITS2, speakers := [] }

/-- A package file carrying `badVersionManifest`. -/
def badVersionFile : AivmFile :=
  { path := "/models/u3.aivmx", size := 3, content := .valid badVersionManifest }

/-- The cache entry the scan builds from `fEx` (after a carry-over that finds
`"u1"` loaded in the previous generation). -/
def infoNewEx : AivmInfo :=
  { is_loaded := true, is_update_available := false, latest_version := "1.0.0",
    file_path := "/models/u1.aivmx", file_size := 3, manifest := mEx,
    speakers := [] }

/-- A previous-generation cache in which `"u1"` is loaded. -/
def prevEx : Cache :=
  [("u1", { is_loaded := true, is_update_available := false,
            latest_version := "0.9.0", file_path := "/old/u1.aivmx",
            file_size := 1, manifest := mEx, speakers := [] })]

/-- A one-entry cache for the uninstall guards. -/
def cEx6 : Cache := [("u1", infoNewEx)]

/-- A registry state whose cache is `cEx6`. -/
def stEx6 : RegistryState := { files := [fEx], cache := some cEx6 }

/-- An entry with parseable installed version `"1.0.0"`. -/
def infoEx9 : AivmInfo :=
  { is_loaded := false, is_update_available := false,
    latest_version := "1.0.0", file_path := "/models/u1.aivmx",
    file_size := 3, manifest := mEx, speakers := [] }

/-- An AivisHub model-files entry whose version string is not a semantic
version. -/
def mfEx9 : ModelFile := { model_type := some "AIVMX", version := some "bogus" }

/-- A catalog answering every model with a well-formed response whose AIVMX
version string is unparseable. -/
def catEx9 : String → CatalogResult := fun _ => .ok (some [mfEx9])

/-- A catalog differing from `catEx9` on a UUID (`"zz"`) that `cacheEx9` does
not contain. -/
def catEx9b : String → CatalogResult :=
  fun u => if u == "zz" then .timeoutErr else .ok (some [mfEx9])

/-- A one-entry cache for the reconciliation claims. -/
def cacheEx9 : Cache := [("u1", infoEx9)]

/-! # Theorems -/

/-- Claim C1: for every hash function, every non-empty `speaker_uuid` and every
`local_style_id` in `[0, 31]`, encoding succeeds and decoding the encoded
identifier returns the local index:
`style_id_to_local_style_id (local_style_id_to_style_id lid uuid) = lid`. -/
theorem c1_codec_roundtrip (md5hash : String → Nat) (speaker_uuid : String)
    (local_style_id : Int) (hne : speaker_uuid ≠ "")
    (h0 : 0 ≤ local_style_id) (h31 : local_style_id ≤ 31) :
    (local_style_id_to_style_id md5hash local_style_id speaker_uuid).map
        (fun sid => (style_id_to_local_style_id sid : Int))
      = .ok local_style_id := by
  unfold local_style_id_to_style_id
  rw [if_neg hne, if_pos ⟨h0, h31⟩]
  have hcore : style_id_to_local_style_id
      (style_id_core md5hash speaker_uuid local_style_id) = local_style_id.toNat := by
    unfold style_id_core style_id_to_local_style_id
    have hh : md5hash speaker_uuid % 2 ^ 27 < 2 ^ 27 := Nat.mod_lt _ (by norm_num)
    simp only []
    split <;> omega
  simp only [Except.map, hcore]
  congr 1
  omega

/-- Witness for C1 at a concrete input: hash value `123456789`, uuid `"a"`,
local index `7`. -/
theorem c1_codec_roundtrip_witness :
    (local_style_id_to_style_id (fun _ => 123456789) 7 "a").map
        (fun sid => (style_id_to_local_style_id sid : Int))
      = .ok 7 :=
  c1_codec_roundtrip (fun _ => 123456789) "a" 7 (by decide) (by decide) (by decide)

/-- Claim C2: for every hash function, every non-empty `speaker_uuid` and every
`local_style_id` in `[0, 31]`, the encoded identifier has bit 31 clear: it is
below `2 ^ 31`, hence non-negative as a two's-complement 32-bit signed integer. -/
theorem c2_codec_sign_bit_clear (md5hash : String → Nat) (speaker_uuid : String)
    (local_style_id : Int) (sid : Nat) (hne : speaker_uuid ≠ "")
    (h0 : 0 ≤ local_style_id) (h31 : local_style_id ≤ 31)
    (henc : local_style_id_to_style_id md5hash local_style_id speaker_uuid = .ok sid) :
    sid < 2 ^ 31 := by
  unfold local_style_id_to_style_id at henc
  rw [if_neg hne, if_pos ⟨h0, h31⟩] at henc
  have hsid : sid = style_id_core md5hash speaker_uuid local_style_id := by
    cases henc; rfl
  subst hsid
  unfold style_id_core
  have hh : md5hash speaker_uuid % 2 ^ 27 < 2 ^ 27 := Nat.mod_lt _ (by norm_num)
  have hl : local_style_id.toNat % 2 ^ 5 < 2 ^ 5 := Nat.mod_lt _ (by norm_num)
  simp only []
  split <;> omega

/-- Witness for C2 at a concrete input: hash value `123456789` (which sets the
sign bit before clearing), uuid `"a"`, local index `7`. -/
theorem c2_codec_sign_bit_clear_witness : (1803133607 : Nat) < 2 ^ 31 :=
  c2_codec_sign_bit_clear (fun _ => 123456789) "a" 7 1803133607
    (by decide) (by decide) (by decide) rfl

/-- Claim C10: `get_style_id_from_model_name` returns the id of the first
style of the *first* speaker of the first cached model containing a speaker
named `model_name` (not necessarily a style of the matching speaker), and
fails with `HTTPException(500)` — not 404 — when no speaker name matches. -/
theorem c10_style_id_from_model_name (infos : Cache) (model_name : String) :
    get_style_id_from_model_name infos model_name =
      match infos.find?
          (fun e => e.2.speakers.any (fun s => s.speaker.name == model_name)) with
      | none => .error (.httpException 500 "model_name does not exist")
      | some e =>
        match e.2.speakers.head? with
        | none => .error .indexError
        | some s0 =>
          match s0.speaker.styles.head? with
          | none => .error .indexError
          | some st0 => .ok st0.id := by
  induction infos with
  | nil => rfl
  | cons e rest ih =>
    obtain ⟨k, aivm_info⟩ := e
    by_cases h : aivm_info.speakers.any (fun s => s.speaker.name == model_name) = true
    · have hf : List.find?
          (fun e => e.2.speakers.any (fun s => s.speaker.name == model_name))
          ((k, aivm_info) :: rest) = some (k, aivm_info) := by
        simp [List.find?, h]
      rw [hf]
      simp only [get_style_id_from_model_name, h, if_true]
      cases hs : aivm_info.speakers with
      | nil => rw [hs] at h; simp at h
      | cons s0 ss => cases hst : s0.speaker.styles <;> simp [hst]
    · have h' : aivm_info.speakers.any (fun s => s.speaker.name == model_name)
          = false := by
        cases hb : aivm_info.speakers.any (fun s => s.speaker.name == model_name) <;>
          simp_all
      have hf : List.find?
          (fun e => e.2.speakers.any (fun s => s.speaker.name == model_name))
          ((k, aivm_info) :: rest)
          = List.find?
            (fun e => e.2.speakers.any (fun s => s.speaker.name == model_name))
            rest := by
        simp [List.find?, h']
      rw [hf]
      simp only [get_style_id_from_model_name, h', Bool.false_eq_true, if_false]
      exact ih

-- `fetch_latest_version` consults the catalog only at its own entry's UUID.
theorem fetch_latest_version_congr (catalog catalog2 : String → CatalogResult)
    (info : AivmInfo)
    (h : catalog info.manifest.uuid = catalog2 info.manifest.uuid) :
    fetch_latest_version catalog info = fetch_latest_version catalog2 info := by
  unfold fetch_latest_version
  rw [h]

/-- Claim C9 counterexample: a well-formed catalog response whose AIVMX
version string is not a semantic version (`"bogus"`) is a malformed-response
condition, yet the entry's `latest_version` does *not* keep its prior value —
it is overwritten before `Version.parse` fails. -/
theorem c9_counterexample :
    (fetch_latest_version catEx9 infoEx9).latest_version
      ≠ infoEx9.latest_version := by decide

/-- Claim C9 (amended): for every reconciliation pass, a catalog call failing
with timeout, transport error, 404, another non-2xx status, undecodable JSON,
a missing `model_files`/`model_type`/`version` key or no AIVMX variant leaves
the entry completely unchanged; when the response is well-formed but the
fetched version string (or the installed version) fails semantic-version
parsing, `latest_version` has already been overwritten with the fetched
string and only `is_update_available` keeps its prior value; and each entry's
result depends only on the catalog's answer for its own UUID, so one entry's
failure cannot affect another's update. -/
theorem c9_reconciliation_amended (catalog catalog2 : String → CatalogResult)
    (info : AivmInfo) (cache : Cache) (i : Nat) (e : String × AivmInfo)
    (mfs : List ModelFile) (mf : ModelFile) (v : String) :
    (isFailureResponse (catalog info.manifest.uuid) = true →
      fetch_latest_version catalog info = info)
    ∧ (catalog info.manifest.uuid = .ok (some mfs) → findAivmx mfs = .error () →
      fetch_latest_version catalog info = info)
    ∧ (catalog info.manifest.uuid = .ok (some mfs) → findAivmx mfs = .ok none →
      fetch_latest_version catalog info = info)
    ∧ (catalog info.manifest.uuid = .ok (some mfs) →
      findAivmx mfs = .ok (some mf) → mf.version = none →
      fetch_latest_version catalog info = info)
    ∧ (catalog info.manifest.uuid = .ok (some mfs) →
      findAivmx mfs = .ok (some mf) → mf.version = some v →
      (semver_parse? info.manifest.version = none ∨ semver_parse? v = none) →
      fetch_latest_version catalog info = { info with latest_version := v })
    ∧ (cache.get? i = some e →
      catalog e.2.manifest.uuid = catalog2 e.2.manifest.uuid →
      (check_aivm_updates_from_hub catalog cache).get? i
        = (check_aivm_updates_from_hub catalog2 cache).get? i) := by
  refine ⟨?_, ?_, ?_, ?_, ?_, ?_⟩
  · intro h
    unfold fetch_latest_version
    cases hc : catalog info.manifest.uuid with
    | ok model_files =>
      cases model_files with
      | none => rfl
      | some mfs' => rw [hc] at h; simp [isFailureResponse] at h
    | notFoundResp => rfl
    | httpError code => rfl
    | timeoutErr => rfl
    | transportError => rfl
    | badJson => rfl
  · intro hc hfind
    simp only [fetch_latest_version, hc, hfind]
  · intro hc hfind
    simp only [fetch_latest_version, hc, hfind]
  · intro hc hfind hv
    simp only [fetch_latest_version, hc, hfind, hv]
  · intro hc hfind hv hpar
    simp only [fetch_latest_version, hc, hfind, hv]
    cases hcur : semver_parse? info.manifest.version with
    | none => simp only [hcur]
    | some cur =>
      cases hlat : semver_parse? v with
      | none => simp only [hcur, hlat]
      | some lat =>
        rcases hpar with h | h
        · rw [hcur] at h; cases h
        · rw [hlat] at h; cases h
  · intro hget hagree
    unfold check_aivm_updates_from_hub
    rw [List.get?_map, List.get?_map, hget]
    simp only [Option.map_some']
    rw [fetch_latest_version_congr catalog catalog2 e.2 hagree]

/-- Witness for C9 (amended) at concrete inputs: a timeout leaves the entry
unchanged; response version `"bogus"` overwrites `latest_version` only; two
catalogs agreeing on `"u1"` produce the same entry 0. -/
theorem c9_reconciliation_amended_witness :
    fetch_latest_version (fun _ => .timeoutErr) infoEx9 = infoEx9
    ∧ fetch_latest_version catEx9 infoEx9 = { infoEx9 with latest_version := "bogus" }
    ∧ (check_aivm_updates_from_hub catEx9 cacheEx9).get? 0
      = (check_aivm_updates_from_hub catEx9b cacheEx9).get? 0 :=
  ⟨(c9_reconciliation_amended (fun _ => .timeoutErr) (fun _ => .timeoutErr)
      infoEx9 [] 0 ("", infoEx9) [] mfEx9 "").1 rfl,
   (c9_reconciliation_amended catEx9 catEx9 infoEx9 [] 0 ("", infoEx9)
      [mfEx9] mfEx9 "bogus").2.2.2.2.1 rfl rfl rfl (Or.inr (by decide)),
   (c9_reconciliation_amended catEx9 catEx9b infoEx9 cacheEx9 0 ("u1", infoEx9)
      [] mfEx9 "").2.2.2.2.2 rfl rfl⟩

/-- Claim C7 counterexample: installing the two-byte package `[7, 7]` at a
fresh target path can, on a crash midway through the write, leave the
partially-written content `[7]` at the target — neither absent nor the full
package — because the code writes the target directly instead of staging to a
temporary location and replacing atomically. -/
theorem c7_counterexample :
    some [7] ∈ crashObservable (fun _ => none) "/models/u1.aivmx"
        (install_aivm_write_ops "/models/u1.aivmx" [7, 7])
    ∧ some ([7] : List Nat) ≠ none
    ∧ ([7] : List Nat) ≠ [7, 7] := by decide

/-- Claim C7 (amended): `install_aivm` places the package bytes with a single
direct non-atomic write to the target path — no temporary location, no atomic
replace — so for any package of at least two bytes written to a fresh target,
a crash midway can leave a strict partial write (here: the first byte) at the
target path. -/
theorem c7_install_direct_write (target : String) (data : List Nat)
    (fs : String → Option (List Nat)) (hfresh : fs target = none)
    (hlen : 2 ≤ data.length) :
    install_aivm_write_ops target data = [.writeFile target data]
    ∧ some (data.take 1)
        ∈ crashObservable fs target (install_aivm_write_ops target data)
    ∧ some (data.take 1) ≠ fs target
    ∧ data.take 1 ≠ data := by
  refine ⟨rfl, ?_, ?_, ?_⟩
  · unfold install_aivm_write_ops crashObservable
    rw [if_pos rfl]
    apply List.mem_append_left
    apply List.mem_map.mpr
    exact ⟨1, List.mem_range.mpr (by omega), rfl⟩
  · rw [hfresh]
    exact fun h => Option.noConfusion h
  · intro h
    have hle := congrArg List.length h
    rw [List.length_take] at hle
    omega

/-- Witness for C7 (amended) at a concrete input: package `[7, 7]` written to
a fresh `/models/u1.aivmx`. -/
theorem c7_install_direct_write_witness :
    install_aivm_write_ops "/models/u1.aivmx" [7, 7]
        = [.writeFile "/models/u1.aivmx" [7, 7]]
    ∧ some (([7, 7] : List Nat).take 1)
        ∈ crashObservable (fun _ => none) "/models/u1.aivmx"
            (install_aivm_write_ops "/models/u1.aivmx" [7, 7])
    ∧ some (([7, 7] : List Nat).take 1) ≠ (fun (_ : String) => none) "/models/u1.aivmx"
    ∧ ([7, 7] : List Nat).take 1 ≠ [7, 7] :=
  c7_install_direct_write "/models/u1.aivmx" [7, 7] (fun _ => none) rfl (by decide)

/-- Claim C8 counterexample: constructing the manager over an empty install
directory while the default-model download fails raises
`HTTPException(500)` out of the constructor — the bootstrap failure is not
contained, and construction does not complete. -/
theorem c8_counterexample :
    AivmManager_init md5hash0 [] (fun _ => .failure)
      = .error (.httpException 500 "failed to download AIVMX file") := rfl

/-- Claim C8 (amended): when the initial scan finds zero installed models and
the catalog download of the default model fails, `install_aivm_from_url`
raises `HTTPException(500)` and `__init__` propagates it: process startup
aborts instead of completing with an empty-but-usable registry. -/
theorem c8_bootstrap_failure_propagates (md5hash : String → Nat)
    (files : List AivmFile) (download : String → DownloadResult)
    (hscan : get_installed_aivm_infos md5hash false none files = .ok [])
    (hdl : download (aivm_download_url "a59cb814-0083-4369-8542-f51a29e72af7")
      = .failure) :
    AivmManager_init md5hash files download
      = .error (.httpException 500 "failed to download AIVMX file") := by
  unfold AivmManager_init
  rw [hscan]
  simp only [List.length_nil, if_pos, DEFAULT_MODEL_UUIDS, List.foldlM,
    install_aivm_from_url_m, hdl]
  rfl

/-- Witness for C8 (amended) at a concrete input: empty install directory,
every download failing. -/
theorem c8_bootstrap_failure_propagates_witness :
    AivmManager_init md5hash0 [] (fun _ => .failure)
      = .error (.httpException 500 "failed to download AIVMX file") :=
  c8_bootstrap_failure_propagates md5hash0 [] (fun _ => .failure) rfl rfl

/-- Claim C6: with a populated cache, `uninstall_aivm` fails with
`HTTPException(404)` when the UUID is not cached, and with
`HTTPException(400)` when exactly one entry remains; in both failure cases
the returned state equals the input state — no cache entry is removed and no
file is deleted. -/
theorem c6_uninstall_guards (md5hash : String → Nat) (st : RegistryState)
    (aivm_uuid : String) (c : Cache) (hc : st.cache = some c) :
    (alookup aivm_uuid c = none →
      uninstall_aivm md5hash st aivm_uuid = (st, .notFound404))
    ∧ ((alookup aivm_uuid c).isSome = true → c.length = 1 →
      uninstall_aivm md5hash st aivm_uuid = (st, .minCardinality400)) := by
  have hget : get_installed_aivm_infos md5hash false st.cache st.files = .ok c := by
    rw [hc]; rfl
  have hst1 : ({ st with cache := some c } : RegistryState) = st := by
    cases st with
    | mk files cache => simp only at hc; rw [hc]
  constructor
  · intro h
    unfold uninstall_aivm
    rw [hget]
    simp only [h, hst1]
  · intro h1 h2
    cases hl : alookup aivm_uuid c with
    | none => rw [hl] at h1; cases h1
    | some info =>
      unfold uninstall_aivm
      rw [hget]
      simp only [hl, h2, hst1]
      norm_num

/-- Witness for C6 at concrete inputs: a one-entry registry; uninstalling the
unknown UUID `"zz"` gives 404, uninstalling the sole entry `"u1"` gives 400,
both leaving the state unchanged. -/
theorem c6_uninstall_guards_witness :
    uninstall_aivm md5hash0 stEx6 "zz" = (stEx6, .notFound404)
    ∧ uninstall_aivm md5hash0 stEx6 "u1" = (stEx6, .minCardinality400) :=
  ⟨(c6_uninstall_guards md5hash0 stEx6 "zz" cEx6 rfl).1 rfl,
   (c6_uninstall_guards md5hash0 stEx6 "u1" cEx6 rfl).2 rfl rfl⟩

-- On a valid data URL, extraction succeeds with the part after the first comma.
theorem extract_base64_ok {s : String} (h : isValidDataUrl s = true) :
    extract_base64_from_data_url s = .ok (String.mk (afterFirstComma s.data)) := by
  unfold isValidDataUrl at h
  rw [Bool.and_eq_true, Bool.and_eq_true] at h
  obtain ⟨⟨he, hp⟩, hc⟩ := h
  have he' : s.data.isEmpty = false := by cases hie : s.data.isEmpty <;> simp_all
  have hc' : ',' ∈ s.data := by simpa using hc
  unfold extract_base64_from_data_url
  simp [he', hp, hc, hc']

-- With a non-empty uuid and an in-range local id, encoding succeeds.
theorem local_style_id_to_style_id_ok (md5hash : String → Nat) {lid : Int}
    {uuid : String} (hne : uuid ≠ "") (h0 : 0 ≤ lid) (h31 : lid ≤ 31) :
    local_style_id_to_style_id md5hash lid uuid
      = .ok (style_id_core md5hash uuid lid) := by
  unfold local_style_id_to_style_id
  rw [if_neg hne, if_pos ⟨h0, h31⟩]

-- When every sample audio is a valid data URL, sample extraction succeeds.
theorem extractVoiceSamples_ok {l : List VoiceSample}
    (h : l.all (fun s => isValidDataUrl s.audio) = true) :
    ∃ bs, extractVoiceSamples l = .ok bs := by
  induction l with
  | nil => exact ⟨[], rfl⟩
  | cons s t ih =>
    rw [List.all_cons, Bool.and_eq_true] at h
    obtain ⟨h1, h2⟩ := h
    obtain ⟨bs, hbs⟩ := ih h2
    simp only [extractVoiceSamples, extract_base64_ok h1, hbs]
    exact ⟨_, rfl⟩

-- The style-icon conditional succeeds on a falsy or valid icon.
theorem styleIcon_ok (speaker_icon : String) {icon : Option String}
    (h : (match icon with
          | some ic => ic.data.isEmpty || isValidDataUrl ic
          | none => true) = true) :
    ∃ s, styleIcon speaker_icon icon = .ok s := by
  cases icon with
  | none => exact ⟨speaker_icon, rfl⟩
  | some ic =>
    simp only [styleIcon]
    by_cases hie : ic.data.isEmpty = true
    · rw [if_pos hie]; exact ⟨speaker_icon, rfl⟩
    · have hv : isValidDataUrl ic = true := by
        cases hb : ic.data.isEmpty <;> simp_all
      rw [if_neg hie, extract_base64_ok hv]
      exact ⟨_, rfl⟩

-- A style satisfying `styleOk` of a speaker with non-empty uuid is processed
-- without an exception.
theorem processStyle_ok (md5hash : String → Nat) {speaker_uuid : String}
    (speaker_icon : String) {st : AivmManifestSpeakerStyle}
    (hne : speaker_uuid ≠ "") (hst : styleOk st = true) :
    ∃ p, processStyle md5hash speaker_uuid speaker_icon st = .ok p := by
  unfold styleOk at hst
  rw [Bool.and_eq_true, Bool.and_eq_true, Bool.and_eq_true] at hst
  obtain ⟨⟨⟨h0, h31⟩, hicon⟩, hsamp⟩ := hst
  obtain ⟨bs, hbs⟩ := extractVoiceSamples_ok hsamp
  obtain ⟨ico, hico⟩ := styleIcon_ok speaker_icon hicon
  simp only [processStyle,
    local_style_id_to_style_id_ok md5hash hne (of_decide_eq_true h0)
      (of_decide_eq_true h31), hico, hbs]
  exact ⟨_, rfl⟩

-- A list of Ok styles is processed without an exception.
theorem processStyles_ok (md5hash : String → Nat) {speaker_uuid : String}
    (speaker_icon : String) {styles : List AivmManifestSpeakerStyle}
    (hne : speaker_uuid ≠ "") (hsts : styles.all styleOk = true) :
    ∃ ps, processStyles md5hash speaker_uuid speaker_icon styles = .ok ps := by
  induction styles with
  | nil => exact ⟨[], rfl⟩
  | cons st t ih =>
    rw [List.all_cons, Bool.and_eq_true] at hsts
    obtain ⟨h1, h2⟩ := hsts
    obtain ⟨p, hp⟩ := processStyle_ok md5hash speaker_icon hne h1
    obtain ⟨ps, hps⟩ := ih h2
    simp only [processStyles, hp, hps]
    exact ⟨_, rfl⟩

-- A speaker satisfying `speakerOk` is processed without an exception.
theorem processSpeaker_ok (md5hash : String → Nat) (manifest : AivmManifest)
    {sp : AivmManifestSpeaker} (hsp : speakerOk sp = true) :
    ∃ r, processSpeaker md5hash manifest sp = .ok r := by
  simp only [speakerOk] at hsp
  simp only [processSpeaker]
  by_cases hja : (!((sp.supported_languages.map pyLower).contains "ja"
      || (sp.supported_languages.map pyLower).contains "ja-jp")) = true
  · rw [if_pos hja]; exact ⟨none, rfl⟩
  · rw [if_neg hja]
    rw [if_neg hja] at hsp
    rw [Bool.and_eq_true, Bool.and_eq_true] at hsp
    obtain ⟨⟨hu, hicon⟩, hsts⟩ := hsp
    have hne : sp.uuid ≠ "" := by
      intro he; rw [he] at hu; simp at hu
    obtain ⟨ps, hps⟩ :=
      processStyles_ok md5hash (String.mk (afterFirstComma sp.icon.data)) hne hsts
    simp only [extract_base64_ok hicon, hps]
    exact ⟨_, rfl⟩

-- A list of Ok speakers is processed without an exception.
theorem processSpeakers_ok (md5hash : String → Nat) (manifest : AivmManifest)
    {sps : List AivmManifestSpeaker} (hsps : sps.all speakerOk = true) :
    ∃ rs, processSpeakers md5hash manifest sps = .ok rs := by
  induction sps with
  | nil => exact ⟨[], rfl⟩
  | cons sp t ih =>
    rw [List.all_cons, Bool.and_eq_true] at hsps
    obtain ⟨h1, h2⟩ := hsps
    obtain ⟨r, hr⟩ := processSpeaker_ok md5hash manifest h1
    obtain ⟨rs, hrs⟩ := ih h2
    simp only [processSpeakers, hr, hrs]
    exact ⟨_, rfl⟩

-- A file satisfying `fileOk` is processed without an exception.
theorem processFile_ok (md5hash : String → Nat) (acc : Cache) {f : AivmFile}
    (hf : fileOk f = true) :
    ∃ acc2, processFile md5hash acc f = .ok acc2 := by
  rcases f with ⟨path, size, content⟩
  cases content with
  | missing => exact ⟨acc, rfl⟩
  | notAFile => exact ⟨acc, rfl⟩
  | invalidMetadata => exact ⟨acc, rfl⟩
  | valid m =>
    simp only [fileOk, manifestOk, Bool.and_eq_true] at hf
    obtain ⟨hver, hsps⟩ := hf
    simp only [processFile]
    by_cases hdup : (alookup m.uuid acc).isSome = true
    · rw [if_pos hdup]; exact ⟨acc, rfl⟩
    · rw [if_neg hdup]
      cases hsp : pySplit '.' m.manifest_version with
      | nil => exact ⟨acc, rfl⟩
      | cons p0 ps =>
        cases ps with
        | nil => exact ⟨acc, rfl⟩
        | cons p1 ps2 =>
          cases ps2 with
          | cons p2 ps3 => exact ⟨acc, rfl⟩
          | nil =>
            have hver2 : ((pyInt? p0).isSome && (pyInt? p1).isSome) = true := by
              rw [hsp] at hver; exact hver
            rw [Bool.and_eq_true] at hver2
            obtain ⟨hp0, hp1⟩ := hver2
            cases hi0 : pyInt? p0 with
            | none => rw [hi0] at hp0; cases hp0
            | some i0 =>
              cases hi1 : pyInt? p1 with
              | none => rw [hi1] at hp1; cases hp1
              | some i1 =>
                simp only [hi0, hi1]
                by_cases hmaj : i0 ≠ supported_major
                · rw [if_pos hmaj]; exact ⟨acc, rfl⟩
                · rw [if_neg hmaj]
                  by_cases harch : m.model_architecture ∉ SUPPORTED_MODEL_ARCHITECTURES
                  · rw [if_pos harch]; exact ⟨acc, rfl⟩
                  · rw [if_neg harch]
                    obtain ⟨rs, hrs⟩ := processSpeakers_ok md5hash m hsps
                    simp only [hrs]
                    exact ⟨_, rfl⟩

-- A directory of Ok files is scanned without an exception.
theorem scanFiles_ok (md5hash : String → Nat) {files : List AivmFile}
    (hwf : files.all fileOk = true) :
    ∀ acc, ∃ r, scanFiles md5hash files acc = .ok r := by
  induction files with
  | nil => exact fun acc => ⟨acc, rfl⟩
  | cons f t ih =>
    rw [List.all_cons, Bool.and_eq_true] at hwf
    obtain ⟨h1, h2⟩ := hwf
    intro acc
    obtain ⟨acc2, hacc2⟩ := processFile_ok md5hash acc h1
    obtain ⟨r, hr⟩ := ih h2 acc2
    refine ⟨r, ?_⟩
    simp only [scanFiles, hacc2, hr]


-- With `force` set, `get_installed_aivm_infos` always rescans.
theorem get_installed_force_eq (md5hash : String → Nat) (prev : Option Cache)
    (files : List AivmFile) :
    get_installed_aivm_infos md5hash true prev files
      = rescan_aivm_dir md5hash prev files := by
  cases prev <;> rfl

/-- Claim C3 counterexample: a directory with a single parseable package whose
manifest version is `"v1.0"` (two parts, non-numeric major) makes the forced
rescan raise an uncaught `ValueError` from `map(int, ...)` instead of
skipping the file: the scan does not complete. -/
theorem c3_counterexample :
    get_installed_aivm_infos md5hash0 true none [badVersionFile]
      = .error (.valueError "invalid literal for int() with base 10") := rfl

/-- Claim C3 (amended): the forced rescan completes without an exception for
every directory whose parseable manifests are well-formed: two-part manifest
versions have `int()`-parseable parts, and every Japanese-supporting speaker
has a non-empty UUID, data-URL speaker/style icons and sample audios, and
local style ids inside `[0, 31]`.  (Path failures, metadata-read failures,
duplicate UUIDs, malformed or unsupported versions and unsupported
architectures are always skipped with a warning, as the claim states; but
outside these well-formedness conditions a `ValueError` escapes the scan, so
the claim's "never raises for every directory contents" is false.) -/
theorem c3_scan_total_when_wellformed (md5hash : String → Nat)
    (prev : Option Cache) (files : List AivmFile)
    (hwf : files.all fileOk = true) :
    isOkE (get_installed_aivm_infos md5hash true prev files) = true := by
  rw [get_installed_force_eq]
  obtain ⟨r, hr⟩ := scanFiles_ok md5hash hwf []
  unfold rescan_aivm_dir
  simp only [hr]
  rfl

/-- Witness for C3 (amended) at a concrete input: a directory holding one
speakerless valid package and one package with a Japanese speaker, icons and
a voice sample. -/
theorem c3_scan_total_when_wellformed_witness :
    isOkE (get_installed_aivm_infos md5hash0 true none [fEx, richFile]) = true :=
  c3_scan_total_when_wellformed md5hash0 none [fEx, richFile] (by decide)

/-! ## Association-list, permutation and carry-over lemmas for C4 and C5 -/

-- A key is absent from an association list iff lookup yields `none`.
theorem alookup_eq_none_iff (u : String) (l : List (String × AivmInfo)) :
    alookup u l = none ↔ u ∉ l.map Prod.fst := by
  induction l with
  | nil => simp [alookup]
  | cons e t ih =>
    obtain ⟨k, v⟩ := e
    simp only [alookup, List.map_cons, List.mem_cons]
    by_cases hk : k = u
    · subst hk
      simp
    · rw [if_neg hk, ih]
      constructor
      · intro h hor
        rcases hor with he | hm
        · exact hk he.symm
        · exact h hm
      · intro h hm
        exact h (Or.inr hm)

-- A successful lookup is a member.
theorem alookup_mem {u : String} {l : List (String × AivmInfo)} {v : AivmInfo}
    (h : alookup u l = some v) : (u, v) ∈ l := by
  induction l with
  | nil => cases h
  | cons e t ih =>
    obtain ⟨k, w⟩ := e
    simp only [alookup] at h
    by_cases hk : k = u
    · rw [if_pos hk] at h
      cases h
      subst hk
      exact List.mem_cons_self _ _
    · rw [if_neg hk] at h
      exact List.mem_cons_of_mem _ (ih h)

-- Appending a fresh element preserves distinctness.
theorem nodup_append_single {α : Type} (x : α) (l : List α) (hx : x ∉ l)
    (hl : l.Nodup) : (l ++ [x]).Nodup := by
  rw [List.nodup_append]
  refine ⟨hl, List.nodup_singleton x, ?_⟩
  intro a hal hax
  rw [List.mem_singleton] at hax
  exact hx (hax ▸ hal)

-- What one scan-loop iteration can do to the accumulator: leave it unchanged,
-- or append one fresh entry built from the file's manifest with
-- `is_loaded = false`.
theorem processFile_spec (md5hash : String → Nat) (acc : Cache) (f : AivmFile)
    (r : Cache) (h : processFile md5hash acc f = .ok r) :
    r = acc ∨ ∃ m info, f.content = .valid m ∧ alookup m.uuid acc = none
      ∧ info.is_loaded = false ∧ info.manifest = m
      ∧ r = acc ++ [(m.uuid, info)] := by
  rcases f with ⟨path, size, content⟩
  cases content with
  | missing => exact Or.inl (Except.ok.inj h).symm
  | notAFile => exact Or.inl (Except.ok.inj h).symm
  | invalidMetadata => exact Or.inl (Except.ok.inj h).symm
  | valid m =>
    simp only [processFile] at h
    by_cases hdup : (alookup m.uuid acc).isSome = true
    · rw [if_pos hdup] at h
      exact Or.inl (Except.ok.inj h).symm
    · rw [if_neg hdup] at h
      have halook : alookup m.uuid acc = none := by
        cases ha : alookup m.uuid acc
        · rfl
        · rw [ha] at hdup; simp at hdup
      cases hsp : pySplit '.' m.manifest_version with
      | nil => rw [hsp] at h; exact Or.inl (Except.ok.inj h).symm
      | cons p0 ps =>
        cases ps with
        | nil => rw [hsp] at h; exact Or.inl (Except.ok.inj h).symm
        | cons p1 ps2 =>
          cases ps2 with
          | cons p2 ps3 => rw [hsp] at h; exact Or.inl (Except.ok.inj h).symm
          | nil =>
            rw [hsp] at h
            cases hi0 : pyInt? p0 with
            | none => simp only [hi0] at h; cases h
            | some i0 =>
              cases hi1 : pyInt? p1 with
              | none => simp only [hi0, hi1] at h; cases h
              | some i1 =>
                simp only [hi0, hi1] at h
                by_cases hmaj : i0 ≠ supported_major
                · rw [if_pos hmaj] at h
                  exact Or.inl (Except.ok.inj h).symm
                · rw [if_neg hmaj] at h
                  by_cases harch :
                      m.model_architecture ∉ SUPPORTED_MODEL_ARCHITECTURES
                  · rw [if_pos harch] at h
                    exact Or.inl (Except.ok.inj h).symm
                  · rw [if_neg harch] at h
                    cases hps : processSpeakers md5hash m m.speakers with
                    | error e => rw [hps] at h; cases h
                    | ok speakers =>
                      rw [hps] at h
                      refine Or.inr ⟨m, _, rfl, halook, rfl, rfl,
                        (Except.ok.inj h).symm⟩

-- The scan preserves key distinctness of the accumulator.
theorem scanFiles_nodup (md5hash : String → Nat) (files : List AivmFile) :
    ∀ acc r, scanFiles md5hash files acc = .ok r →
      (acc.map Prod.fst).Nodup → (r.map Prod.fst).Nodup := by
  induction files with
  | nil =>
    intro acc r h hn
    cases h
    exact hn
  | cons f t ih =>
    intro acc r h hn
    simp only [scanFiles] at h
    cases hp : processFile md5hash acc f with
    | error e => rw [hp] at h; cases h
    | ok acc2 =>
      rw [hp] at h
      refine ih acc2 r h ?_
      rcases processFile_spec md5hash acc f acc2 hp with heq |
        ⟨m, info, _, halook, _, _, heq⟩
      · rw [heq]; exact hn
      · rw [heq, List.map_append]
        exact nodup_append_single _ _ ((alookup_eq_none_iff _ _).mp halook) hn

-- Every entry the scan returns either was in the accumulator or stems from
-- one of the scanned files, unloaded.
theorem scanFiles_entry_src (md5hash : String → Nat) (files : List AivmFile) :
    ∀ acc r e, scanFiles md5hash files acc = .ok r → e ∈ r →
      e ∈ acc ∨ (e.2.is_loaded = false
        ∧ files.any (fun f =>
            match f.content with
            | .valid m => m.uuid == e.1
            | _ => false) = true) := by
  induction files with
  | nil =>
    intro acc r e h he
    cases h
    exact Or.inl he
  | cons f t ih =>
    intro acc r e h he
    simp only [scanFiles] at h
    cases hp : processFile md5hash acc f with
    | error e2 => rw [hp] at h; cases h
    | ok acc2 =>
      rw [hp] at h
      rcases ih acc2 r e h he with hacc2 | ⟨hload, hany⟩
      · rcases processFile_spec md5hash acc f acc2 hp with heq |
          ⟨m, info, hcontent, _, hload, _, heq⟩
        · rw [heq] at hacc2; exact Or.inl hacc2
        · rw [heq] at hacc2
          rcases List.mem_append.mp hacc2 with hin | hone
          · exact Or.inl hin
          · rw [List.mem_singleton] at hone
            subst hone
            refine Or.inr ⟨hload, ?_⟩
            rw [List.any_cons, Bool.or_eq_true]
            exact Or.inl (by rw [hcontent]; simp)
      · refine Or.inr ⟨hload, ?_⟩
        rw [List.any_cons, Bool.or_eq_true]
        exact Or.inr hany

-- Stable insertion is a permutation.
theorem insertByName_perm (e : String × AivmInfo) (l : Cache) :
    (insertByName e l).Perm (e :: l) := by
  induction l with
  | nil => exact List.Perm.refl _
  | cons f t ih =>
    simp only [insertByName]
    by_cases hc : f.2.manifest.name < e.2.manifest.name
    · rw [if_pos hc]
      exact (ih.cons f).trans (List.Perm.swap e f t)
    · rw [if_neg hc]

-- The name sort is a permutation.
theorem sortByName_perm (l : Cache) : (sortByName l).Perm l := by
  induction l with
  | nil => exact List.Perm.refl _
  | cons e t ih =>
    exact (insertByName_perm e (sortByName t)).trans (ih.cons e)

-- The load-state carry-over rewrites values but keeps every key in place.
theorem carryOver_map_fst (prev : Option Cache) (l : Cache) :
    (carryOverLoadState prev l).map Prod.fst = l.map Prod.fst := by
  cases prev with
  | none => rfl
  | some p =>
    induction l with
    | nil => rfl
    | cons e t ih =>
      simp only [carryOverLoadState, List.map_cons] at *
      cases alookup e.1 p <;> simp_all

-- Lookup through the carry-over: the entry is the scanned one, with
-- `is_loaded` replaced by the previous generation's value when present.
theorem alookup_carryOver (p : Cache) (l : Cache) (u : String) :
    alookup u (carryOverLoadState (some p) l)
      = (alookup u l).map (fun i =>
          match alookup u p with
          | some pi => { i with is_loaded := pi.is_loaded }
          | none => i) := by
  induction l with
  | nil => rfl
  | cons e t ih =>
    obtain ⟨k, v⟩ := e
    by_cases hk : k = u
    · subst hk
      cases ha : alookup k p <;>
        simp [carryOverLoadState, alookup, ha]
    · cases ha : alookup k p <;>
        simp_all [carryOverLoadState, alookup, ha, hk]

/-- Claim C4: model identities in a scan result are unique (the cache's key
list has no duplicates), and a file whose parsed manifest carries an identity
already present in the index being built is ignored: the scan step returns
the accumulator unchanged, so the existing entry is untouched and the first
file encountered wins. -/
theorem c4_identity_uniqueness (md5hash : String → Nat) (prev : Option Cache)
    (files : List AivmFile) (cache : Cache) (acc : Cache) (f : AivmFile)
    (m : AivmManifest)
    (hscan : get_installed_aivm_infos md5hash true prev files = .ok cache)
    (hvalid : f.content = .valid m)
    (hdup : (alookup m.uuid acc).isSome = true) :
    (cache.map Prod.fst).Nodup ∧ processFile md5hash acc f = .ok acc := by
  constructor
  · rw [get_installed_force_eq] at hscan
    unfold rescan_aivm_dir at hscan
    cases hs : scanFiles md5hash files [] with
    | error e => rw [hs] at hscan; cases hscan
    | ok infos =>
      rw [hs] at hscan
      have hcache : cache = carryOverLoadState prev (sortByName infos) :=
        (Except.ok.inj hscan).symm
      subst hcache
      rw [carryOver_map_fst]
      have hperm : ((sortByName infos).map Prod.fst).Perm (infos.map Prod.fst) :=
        (sortByName_perm infos).map Prod.fst
      rw [hperm.nodup_iff]
      exact scanFiles_nodup md5hash files [] infos hs (by simp)
  · rcases f with ⟨path, size, content⟩
    cases hvalid
    simp only [processFile]
    rw [if_pos hdup]

/-- Witness for C4 at concrete inputs: the empty directory scans to an empty
(trivially duplicate-free) cache, and processing a file whose manifest UUID
`"u1"` is already in the accumulator returns the accumulator unchanged. -/
theorem c4_identity_uniqueness_witness :
    (([] : Cache).map Prod.fst).Nodup
    ∧ processFile md5hash0 [("u1", infoNewEx)] fEx = .ok [("u1", infoNewEx)] :=
  c4_identity_uniqueness md5hash0 none [] [] [("u1", infoNewEx)] fEx mEx
    rfl rfl rfl

/-- Claim C5: after a forced rescan, an entry whose identity was in the
previous cache generation keeps that generation's `is_loaded`; a newly
discovered identity gets `is_loaded = false`; and every identity in the new
cache stems from a file found on disk during this scan (so identities no
longer on disk are absent). -/
theorem c5_load_state_carryover (md5hash : String → Nat) (prev : Cache)
    (files : List AivmFile) (cache : Cache) (u : String) (info : AivmInfo)
    (hscan : get_installed_aivm_infos md5hash true (some prev) files = .ok cache)
    (hl : alookup u cache = some info) :
    info.is_loaded = (match alookup u prev with
                      | some p => p.is_loaded
                      | none => false)
    ∧ files.any (fun f =>
        match f.content with
        | .valid m => m.uuid == u
        | _ => false) = true := by
  rw [get_installed_force_eq] at hscan
  unfold rescan_aivm_dir at hscan
  cases hs : scanFiles md5hash files [] with
  | error e => rw [hs] at hscan; cases hscan
  | ok infos =>
    rw [hs] at hscan
    have hcache : cache = carryOverLoadState (some prev) (sortByName infos) :=
      (Except.ok.inj hscan).symm
    subst hcache
    rw [alookup_carryOver] at hl
    cases hls : alookup u (sortByName infos) with
    | none => rw [hls] at hl; cases hl
    | some i =>
      rw [hls] at hl
      simp only [Option.map_some'] at hl
      have hmem : (u, i) ∈ sortByName infos := alookup_mem hls
      have hmem2 : (u, i) ∈ infos := (sortByName_perm infos).mem_iff.mp hmem
      rcases scanFiles_entry_src md5hash files [] infos (u, i) hs hmem2 with
        hnil | ⟨hload, hany⟩
      · cases hnil
      · refine ⟨?_, hany⟩
        cases hp : alookup u prev with
        | some pi =>
          rw [hp] at hl
          have hinfo := (Option.some.inj hl).symm
          rw [hinfo]
        | none =>
          rw [hp] at hl
          have hinfo := (Option.some.inj hl).symm
          rw [hinfo]
          exact hload

/-- Witness for C5 at concrete inputs: rescanning a directory holding `fEx`
with a previous generation in which `"u1"` is loaded yields an entry whose
`is_loaded` is carried over as `true` and whose identity stems from `fEx`. -/
theorem c5_load_state_carryover_witness :
    infoNewEx.is_loaded = (match alookup "u1" prevEx with
                           | some p => p.is_loaded
                           | none => false)
    ∧ [fEx].any (fun f =>
        match f.content with
        | .valid m => m.uuid == "u1"
        | _ => false) = true :=
  c5_load_state_carryover md5hash0 prevEx [fEx] [("u1", infoNewEx)] "u1"
    infoNewEx rfl rfl

end AivisSpec
